import Mathlib

set_option maxRecDepth 8192

/-!
Verification development for the Deep Mind execution tracer
(`deepmind/src/lib.rs` of streamingfast/openethereum).

The tracer is shallowly embedded: every `print(format!(...))` call of the
source becomes the emission of a structured `Line` value, and `Line.render`
reproduces the exact text of the corresponding Rust format string.  Machine
integers (`u64`, `usize`) are modelled as `Nat`; wrapping arithmetic is made
explicit with `% 2 ^ 64` where the source performs `u64`/`usize` arithmetic
that can overflow.  Operations that can `panic!` return `Option`: `none`
models the panic (the source panics before anything is printed in those
paths, so no partial output is modelled).  `eth::U256::as_u64`, which panics
when the value exceeds `u64::MAX`, is modelled by `u256AsU64`.

`Vec` stacks (`call_stack`, `gas_event_call_stack`) push/pop at the back;
they are modelled as Lean lists whose *head* is the top of the stack.
-/

/-- Wrap-around modulus of 64-bit machine integers. -/
def u64size : Nat := 2 ^ 64

/-- `eth::U256::as_u64` panics when the value does not fit in a `u64`. -/
def u256AsU64 (n : Nat) : Option Nat :=
  if n < u64size then some n else none

/-- Lowercase hexadecimal digit characters, as produced by Rust's `LowerHex`
and by `rustc_hex::ToHex`. -/
def hexDigitChar (n : Nat) : Char :=
  if n < 10 then Char.ofNat (48 + n) else Char.ofNat (87 + n)

/-- Minimal (no leading zero) hex digits of `n`, most significant first;
`fuel` bounds the recursion and `n + 1` is always sufficient. -/
def natToHexAux : Nat → Nat → List Char
  | 0, _ => []
  | fuel + 1, n =>
    if n < 16 then [hexDigitChar n]
    else natToHexAux fuel (n / 16) ++ [hexDigitChar (n % 16)]

/-- Rust `fmt::LowerHex` for `uint` big integers: minimal lowercase hex,
`"0"` for zero, no `0x` prefix. -/
def natToHex (n : Nat) : String :=
  String.mk (natToHexAux (n + 1) n)

/-- The two lowercase hex characters of one byte (`rustc_hex` writes
`b >> 4` then `b & 0xf`; the byte is a `u8`, hence the `% 16` / `% 16`). -/
def byteHexChars (b : Nat) : List Char :=
  [hexDigitChar (b / 16 % 16), hexDigitChar (b % 16)]

/-- Hex characters of a byte string, two characters per byte. -/
def bytesHexChars : List Nat → List Char
  | [] => []
  | b :: rest => byteHexChars b ++ bytesHexChars rest

/-- Big-endian fixed-width byte decomposition (`H160::as_bytes`,
`H256::as_bytes`): `w` bytes, most significant first. -/
def beBytes (w n : Nat) : List Nat :=
  (List.range w).map fun i => n / 256 ^ (w - 1 - i) % 256

/-- The `Hex` wrapper's `LowerHex`: `"."` for an empty byte string,
otherwise the bytes in lowercase hex. -/
def hexFmt (bs : List Nat) : String :=
  if bs = [] then "." else String.mk (bytesHexChars bs)

/-- The `Address` wrapper's `LowerHex`: `"."` for the zero address,
otherwise the 20 bytes in full-width lowercase hex (40 characters). -/
def addressFmt (a : Nat) : String :=
  if a = 0 then "." else String.mk (bytesHexChars (beBytes 20 a))

/-- The `H256` wrapper's `LowerHex`: it delegates directly to the
fixed-hash `LowerHex`, printing all 32 bytes (64 characters) with **no**
zero sentinel. -/
def h256Fmt (h : Nat) : String :=
  String.mk (bytesHexChars (beBytes 32 h))

/-- The `U256` wrapper's `LowerHex`: `"."` for zero, otherwise minimal
lowercase hex. -/
def u256Fmt (v : Nat) : String :=
  if v = 0 then "." else natToHex v

/-- `BalanceChangeReason` enumeration, constructor names as in the source. -/
inductive BalanceChangeReason where
  | Unknown
  | RewardMineUncle
  | RewardMineBlock
  | DaoRefundContract
  | DaoAdjustBalance
  | Transfer
  | GenesisBalance
  | GasBuy
  | RewardTransactionFee
  | GasRefund
  | TouchAccount
  | SuicideRefund
  | SuicideWithdraw
  | CallBalanceOverride
  | Ignored
deriving DecidableEq, Fintype

/-- `impl fmt::Display for BalanceChangeReason`: the protocol token of each
reason; the two sentinels (`CallBalanceOverride`, `Ignored`) `panic!`,
modelled as `none`. -/
def BalanceChangeReason.displayStr : BalanceChangeReason → Option String
  | .Unknown => some "unknown"
  | .RewardMineUncle => some "reward_mine_uncle"
  | .RewardMineBlock => some "reward_mine_block"
  | .DaoRefundContract => some "dao_refund_contract"
  | .DaoAdjustBalance => some "dao_adjust_balance"
  | .Transfer => some "transfer"
  | .GenesisBalance => some "genesis_balance"
  | .GasBuy => some "gas_buy"
  | .RewardTransactionFee => some "reward_transaction_fee"
  | .GasRefund => some "gas_refund"
  | .TouchAccount => some "touch_account"
  | .SuicideRefund => some "suicide_refund"
  | .SuicideWithdraw => some "suicide_withdraw"
  | .CallBalanceOverride => none
  | .Ignored => none

/-- `GasChangeReason` enumeration, constructor names as in the source. -/
inductive GasChangeReason where
  | Unknown
  | Call
  | CallCode
  | CallDataCopy
  | CodeCopy
  | CodeStorage
  | ContractCreation
  | ContractCreation2
  | DelegateCall
  | EventLog
  | ExtCodeCopy
  | FailedExecution
  | IntrinsicGas
  | PrecompiledContract
  | RefundAfterExecution
  | Return
  | ReturnDataCopy
  | Revert
  | SelfDestruct
  | StaticCall
  | StateColdAccess
  | Ignored
deriving DecidableEq, Fintype

/-- `impl fmt::Display for GasChangeReason`: the protocol token of each
reason; the sentinel `Ignored` `panic!`s, modelled as `none`. -/
def GasChangeReason.displayStr : GasChangeReason → Option String
  | .Unknown => some "unknown"
  | .Call => some "call"
  | .CallCode => some "call_code"
  | .CallDataCopy => some "call_data_copy"
  | .CodeCopy => some "code_copy"
  | .CodeStorage => some "code_storage"
  | .ContractCreation => some "contract_creation"
  | .ContractCreation2 => some "contract_creation2"
  | .DelegateCall => some "delegate_call"
  | .EventLog => some "event_log"
  | .ExtCodeCopy => some "ext_code_copy"
  | .FailedExecution => some "failed_execution"
  | .IntrinsicGas => some "intrinsic_gas"
  | .PrecompiledContract => some "precompiled_contract"
  | .RefundAfterExecution => some "refund_after_execution"
  | .Return => some "return"
  | .ReturnDataCopy => some "return_data_copy"
  | .Revert => some "revert"
  | .SelfDestruct => some "self_destruct"
  | .StaticCall => some "static_call"
  | .StateColdAccess => some "state_cold_access"
  | .Ignored => none

/-- `CallType` enumeration, constructor names as in the source. -/
inductive CallType where
  | Call
  | CallCode
  | Create
  | Create2
  | DelegateCall
  | StaticCall
deriving DecidableEq

/-- `impl fmt::Display for CallType` (note `Create2` also prints `CREATE`). -/
def CallType.render : CallType → String
  | .Call => "CALL"
  | .CallCode => "CALLCODE"
  | .Create => "CREATE"
  | .Create2 => "CREATE"
  | .DelegateCall => "DELEGATE"
  | .StaticCall => "STATIC"

/-- The `Log` structure (address, ordered topics, data); `H160`/`H256`
values modelled as `Nat`, byte strings as `List Nat`. -/
structure Log where
  address : Nat
  topics : List Nat
  data : List Nat
deriving DecidableEq

/-- The `Call` structure; `from`/`to` are Lean keywords so the fields are
named `from_addr`/`to_addr`. -/
structure Call where
  call_type : CallType
  from_addr : Nat
  to_addr : Nat
  value : Option Nat
  gas_limit : Nat
  input : Option (List Nat)
deriving DecidableEq

/-- The `TransactionReceipt` structure. -/
structure TransactionReceipt where
  cumulative_gas_used : Nat
  post_state : Nat
  logs_bloom : List Nat
  logs : List Log
deriving DecidableEq

/-- One emitted protocol line, one constructor per `print(format!(...))`
shape used by the operations modelled here; `Line.render` reproduces the
exact Rust format string.  Reason fields carry the already-formatted token
(the source formats the reason inside `format!`, before printing). -/
inductive Line where
  | evmRunCall (call_type : CallType) (call_index : Nat)
  | evmParam (call_type : CallType) (call_index from_addr to_addr value gas_limit : Nat)
      (input : List Nat)
  | evmCallFailed (call_index gas_left : Nat) (reason : String)
  | evmReverted (call_index : Nat)
  | evmEndCall (call_index gas_left : Nat) (return_value : List Nat)
  | balanceChange (call_index address old_balance new_balance : Nat) (reason : String)
  | gasChange (call_index old_gas new_gas : Nat) (reason : String)
  | gasEvent (call_index for_call_index : Nat) (reason : String) (gas_value : Nat)
  | nonceChange (call_index address old_nonce new_nonce : Nat)
  | storageChange (call_index address key old_data new_data : Nat)
  | addLog (call_index log_index_in_block address : Nat) (topics : List Nat)
      (data : List Nat)
  | endApplyTrx (gas_used : Nat) (post_state : List Nat) (cumulative_gas_used : Nat)
      (logs_bloom : List Nat) (logs : List Log)
deriving DecidableEq

/-- `serde_json` serialization of one `Log` (camelCase field names in
declaration order; `H160`/`H256`/`Hex` serialize as `0x`-prefixed lowercase
hex strings). -/
def logToJson (l : Log) : String :=
  "\x7b\"address\":\"0x" ++ String.mk (bytesHexChars (beBytes 20 l.address)) ++
  "\",\"topics\":[" ++
  String.intercalate "," (l.topics.map fun t =>
    "\"0x" ++ String.mk (bytesHexChars (beBytes 32 t)) ++ "\"") ++
  "],\"data\":\"0x" ++ String.mk (bytesHexChars l.data) ++ "\"\x7d"

/-- `serde_json::to_string` of a `Vec<Log>`. -/
def logsToJson (ls : List Log) : String :=
  "[" ++ String.intercalate "," (ls.map logToJson) ++ "]"

/-- The exact text of each emitted line, following the source's format
strings token for token (`u64`/`usize` fields print in decimal via `Display`;
wrapped address/hash/big-int/bytes fields print via the `LowerHex`
formatters above). -/
def Line.render : Line → String
  | .evmRunCall t i => "EVM_RUN_CALL " ++ t.render ++ " " ++ Nat.repr i
  | .evmParam t i src dst v g inp =>
      "EVM_PARAM " ++ t.render ++ " " ++ Nat.repr i ++ " " ++ addressFmt src ++ " " ++
      addressFmt dst ++ " " ++ u256Fmt v ++ " " ++ Nat.repr g ++ " " ++ hexFmt inp
  | .evmCallFailed i g r =>
      "EVM_CALL_FAILED " ++ Nat.repr i ++ " " ++ Nat.repr g ++ " " ++ r
  | .evmReverted i => "EVM_REVERTED " ++ Nat.repr i
  | .evmEndCall i g ret =>
      "EVM_END_CALL " ++ Nat.repr i ++ " " ++ Nat.repr g ++ " " ++ hexFmt ret
  | .balanceChange i a o n r =>
      "BALANCE_CHANGE " ++ Nat.repr i ++ " " ++ addressFmt a ++ " " ++ u256Fmt o ++
      " " ++ u256Fmt n ++ " " ++ r
  | .gasChange i o n r =>
      "GAS_CHANGE " ++ Nat.repr i ++ " " ++ Nat.repr o ++ " " ++ Nat.repr n ++ " " ++ r
  | .gasEvent i f r v =>
      "GAS_EVENT " ++ Nat.repr i ++ " " ++ Nat.repr f ++ " " ++ r ++ " " ++ Nat.repr v
  | .nonceChange i a o n =>
      "NONCE_CHANGE " ++ Nat.repr i ++ " " ++ addressFmt a ++ " " ++ Nat.repr o ++
      " " ++ Nat.repr n
  | .storageChange i a k o n =>
      "STORAGE_CHANGE " ++ Nat.repr i ++ " " ++ addressFmt a ++ " " ++ h256Fmt k ++
      " " ++ h256Fmt o ++ " " ++ h256Fmt n
  | .addLog i li a ts d =>
      "ADD_LOG " ++ Nat.repr i ++ " " ++ Nat.repr li ++ " " ++ addressFmt a ++ " " ++
      String.intercalate "," (ts.map h256Fmt) ++ " " ++ hexFmt d
  | .endApplyTrx g ps cg bloom logs =>
      "END_APPLY_TRX " ++ Nat.repr g ++ " " ++ hexFmt ps ++ " " ++ Nat.repr cg ++
      " " ++ hexFmt bloom ++ " " ++ logsToJson logs

/-- The `TransactionTracer` state (field names as in the source; the two
`Vec` stacks are lists with the head as the stack top). -/
structure TransactionTracer where
  hash : Nat
  call_index : Nat
  last_pop_call_index : Option Nat
  call_stack : List Nat
  gas_event_call_stack : List Nat
  active_gas_left_at_failure : Option Nat
  log_in_block_index : Nat
  log_count : Nat
deriving DecidableEq

/-- `TransactionTracer::active_call_index`: `0` when the call stack is
empty, otherwise the top of the stack. -/
def activeCallIndex (s : TransactionTracer) : Nat :=
  match s.call_stack with
  | [] => 0
  | i :: _ => i

/-- `TransactionTracer::start_call`: increments `call_index` (wrapping
`u64`), pushes the new value, emits `EVM_RUN_CALL` then `EVM_PARAM`. -/
def startCall (s : TransactionTracer) (c : Call) : TransactionTracer × List Line :=
  let ci := (s.call_index + 1) % u64size
  ({ s with call_index := ci, call_stack := ci :: s.call_stack },
   [Line.evmRunCall c.call_type ci,
    Line.evmParam c.call_type ci c.from_addr c.to_addr (c.value.getD 0)
      c.gas_limit (c.input.getD [])])

/-- `TransactionTracer::reverted_call` (takes `&self`, so the state is
returned unchanged): emits `EVM_CALL_FAILED` with reason `Reverted` then
`EVM_REVERTED`, both tagged with the active call index; `none` models the
`as_u64` panic. -/
def revertedCall (s : TransactionTracer) (gas_left : Nat) :
    Option (TransactionTracer × List Line) :=
  (u256AsU64 gas_left).map fun g =>
    (s, [Line.evmCallFailed (activeCallIndex s) g "Reverted",
         Line.evmReverted (activeCallIndex s)])

/-- `TransactionTracer::failed_call`: panics (before printing anything) if a
pending failure is already stored; otherwise emits `EVM_CALL_FAILED` and
stores the gas left at failure. -/
def failedCall (s : TransactionTracer) (gas_left_at_failure : Nat) (err : String) :
    Option (TransactionTracer × List Line) :=
  if s.active_gas_left_at_failure.isSome then none
  else
    (u256AsU64 gas_left_at_failure).map fun g =>
      ({ s with active_gas_left_at_failure := some gas_left_at_failure },
       [Line.evmCallFailed (activeCallIndex s) g err])

/-- `TransactionTracer::end_call`: pops the call stack (panicking when
empty), emits `EVM_END_CALL` with the popped index, and records it as the
last popped index. -/
def endCall (s : TransactionTracer) (gas_left : Nat) (return_data : Option (List Nat)) :
    Option (TransactionTracer × List Line) :=
  match s.call_stack with
  | [] => none
  | call_index :: rest =>
    (u256AsU64 gas_left).map fun g =>
      ({ s with call_stack := rest, last_pop_call_index := some call_index },
       [Line.evmEndCall call_index g (return_data.getD [])])

/-- `TransactionTracer::seen_failed_call`. -/
def seenFailedCall (s : TransactionTracer) : Bool :=
  s.active_gas_left_at_failure.isSome

/-- The free function `record_gas_change`: suppressed entirely when the
reason is the `Ignored` sentinel; `none` models the `Display` panic of a
sentinel reaching the formatter. -/
def recordGasChange (call_index old new : Nat) (reason : GasChangeReason) :
    Option (List Line) :=
  if reason = GasChangeReason.Ignored then some []
  else (reason.displayStr).map fun t => [Line.gasChange call_index old new t]

/-- `TransactionTracer::record_gas_consume`: no line when the consumed delta
is zero; otherwise a `GAS_CHANGE` from `gas_old` to `gas_old - gas_consumed`
(wrapping `u64` subtraction). -/
def recordGasConsume (s : TransactionTracer) (gas_old gas_consumed : Nat)
    (reason : GasChangeReason) : Option (TransactionTracer × List Line) :=
  if gas_consumed ≠ 0 then
    (recordGasChange (activeCallIndex s) (gas_old % u64size)
      ((gas_old % u64size + u64size - gas_consumed % u64size) % u64size) reason).map
      fun ls => (s, ls)
  else some (s, [])

/-- `TransactionTracer::record_gas_refund`: no line when the refund delta is
zero; otherwise a `GAS_CHANGE` with reason `RefundAfterExecution` (wrapping
`u64` addition). -/
def recordGasRefund (s : TransactionTracer) (gas_old gas_refund : Nat) :
    Option (TransactionTracer × List Line) :=
  if gas_refund ≠ 0 then
    (recordGasChange (activeCallIndex s) (gas_old % u64size)
      ((gas_old % u64size + gas_refund % u64size) % u64size)
      GasChangeReason.RefundAfterExecution).map fun ls => (s, ls)
  else some (s, [])

/-- `TransactionTracer::end_failed_call`: consumes the pending failure
(panicking when absent), depletes its gas with a `FailedExecution` gas
consumption, then ends the call with `gas_left = 0` and no return data.
The `from` tag parameter only appears in the panic message. -/
def endFailedCall (s : TransactionTracer) (from_tag : String) :
    Option (TransactionTracer × List Line) :=
  match s.active_gas_left_at_failure with
  | none => none
  | some amount =>
    if amount < u64size then
      let s1 := { s with active_gas_left_at_failure := none }
      (recordGasConsume s1 amount amount GasChangeReason.FailedExecution).bind
        fun p =>
          (endCall p.1 0 none).map fun q => (q.1, p.2 ++ q.2)
    else none

/-- The free function `record_balance_change`: suppressed entirely when the
reason is the `Ignored` sentinel; `none` models the `Display` panic of
`CallBalanceOverride` reaching the formatter. -/
def recordBalanceChangeLine (call_index address old new : Nat)
    (reason : BalanceChangeReason) : Option (List Line) :=
  if reason ≠ BalanceChangeReason.Ignored then
    (reason.displayStr).map fun t =>
      [Line.balanceChange call_index address old new t]
  else some []

/-- `TransactionTracer::record_balance_change`: delegates to the free
function with the active call index. -/
def txRecordBalanceChange (s : TransactionTracer) (address old new : Nat)
    (reason : BalanceChangeReason) : Option (TransactionTracer × List Line) :=
  (recordBalanceChangeLine (activeCallIndex s) address old new reason).map
    fun ls => (s, ls)

/-- `BlockTracer::record_balance_change`: delegates to the free function
with call index `0`. -/
def blockTracerRecordBalanceChange (address old new : Nat)
    (reason : BalanceChangeReason) : Option (List Line) :=
  recordBalanceChangeLine 0 address old new reason

/-- `TransactionTracer::record_nonce_change` (`as_u64` on both nonces). -/
def recordNonceChange (s : TransactionTracer) (address old new : Nat) :
    Option (TransactionTracer × List Line) :=
  (u256AsU64 old).bind fun o =>
    (u256AsU64 new).map fun n =>
      (s, [Line.nonceChange (activeCallIndex s) address o n])

/-- `TransactionTracer::record_storage_change`. -/
def recordStorageChange (s : TransactionTracer) (address key old_data new_data : Nat) :
    TransactionTracer × List Line :=
  (s, [Line.storageChange (activeCallIndex s) address key old_data new_data])

/-- `TransactionTracer::record_log`: emits `ADD_LOG` with the block-relative
log index, then increments both counters (wrapping `u64`). -/
def recordLog (s : TransactionTracer) (l : Log) : TransactionTracer × List Line :=
  ({ s with
      log_count := (s.log_count + 1) % u64size,
      log_in_block_index := (s.log_in_block_index + 1) % u64size },
   [Line.addLog (activeCallIndex s) s.log_in_block_index l.address l.topics l.data])

/-- `TransactionTracer::record_before_call_gas_event`: pushes
`call_index + 1` (the prospective index of the next call, computed from the
monotonic counter, *not* from the active call index) onto the gas-event
stack and emits `GAS_EVENT ... before_call`. -/
def recordBeforeCallGasEvent (s : TransactionTracer) (gas_value : Nat) :
    TransactionTracer × List Line :=
  let call_index := activeCallIndex s
  let for_call_index := (s.call_index + 1) % u64size
  ({ s with gas_event_call_stack := for_call_index :: s.gas_event_call_stack },
   [Line.gasEvent call_index for_call_index "before_call" (gas_value % u64size)])

/-- `TransactionTracer::record_after_call_gas_event`: pops the gas-event
stack (panicking when empty) and emits `GAS_EVENT ... after_call`. -/
def recordAfterCallGasEvent (s : TransactionTracer) (gas_value : Nat) :
    Option (TransactionTracer × List Line) :=
  match s.gas_event_call_stack with
  | [] => none
  | i :: rest =>
    some ({ s with gas_event_call_stack := rest },
      [Line.gasEvent (activeCallIndex s) i "after_call" (gas_value % u64size)])

/-- The `BlockContext` state (the printer and parent `Context` reference are
not part of the data model). -/
structure BlockContext where
  is_enabled : Bool
  is_finalize_block_enabled : Bool
  cumulative_gas_used : Nat
  log_index_at_block : Nat
deriving DecidableEq

/-- `BlockContext::transaction_tracer`: a fresh tracer carrying the block's
current log-index offset. -/
def BlockContext.transactionTracer (b : BlockContext) (hash : Nat) :
    TransactionTracer :=
  { hash := hash
    call_index := 0
    last_pop_call_index := none
    call_stack := []
    gas_event_call_stack := []
    active_gas_left_at_failure := none
    log_in_block_index := b.log_index_at_block
    log_count := 0 }

/-- `BlockContext::end_transaction`: emits `END_APPLY_TRX` with the
incremental gas delta (wrapping `u64` subtraction), the post-state bytes
(empty when the post-state hash is zero), the receipt's absolute cumulative
gas, the logs bloom and the JSON-encoded logs; then advances the block's
`cumulative_gas_used` to the receipt's value. -/
def endTransaction (b : BlockContext) (receipt : TransactionReceipt) :
    BlockContext × List Line :=
  let post_state_bytes :=
    if receipt.post_state = 0 then [] else beBytes 32 receipt.post_state
  ({ b with cumulative_gas_used := receipt.cumulative_gas_used },
   [Line.endApplyTrx
      ((receipt.cumulative_gas_used % u64size + u64size -
        b.cumulative_gas_used % u64size) % u64size)
      post_state_bytes receipt.cumulative_gas_used receipt.logs_bloom receipt.logs])

/-- One invocation of a mutating or emitting tracer operation, used to
quantify over host call sequences. -/
inductive TracerOp where
  | startOp (c : Call)
  | endOp (gas_left : Nat) (return_data : Option (List Nat))
  | revertedOp (gas_left : Nat)
  | failedOp (gas_left : Nat) (err : String)
  | endFailedOp (from_tag : String)
  | beforeGasOp (gas_value : Nat)
  | afterGasOp (gas_value : Nat)
  | logOp (l : Log)
  | gasConsumeOp (gas_old gas_consumed : Nat) (reason : GasChangeReason)
  | gasRefundOp (gas_old gas_refund : Nat)
  | balanceOp (address old new : Nat) (reason : BalanceChangeReason)
  | storageOp (address key old_data new_data : Nat)
  | nonceOp (address old new : Nat)
deriving DecidableEq

/-- Dispatch one operation to its implementation. -/
def applyOp (s : TransactionTracer) : TracerOp → Option (TransactionTracer × List Line)
  | .startOp c => some (startCall s c)
  | .endOp g r => endCall s g r
  | .revertedOp g => revertedCall s g
  | .failedOp g e => failedCall s g e
  | .endFailedOp t => endFailedCall s t
  | .beforeGasOp v => some (recordBeforeCallGasEvent s v)
  | .afterGasOp v => recordAfterCallGasEvent s v
  | .logOp l => some (recordLog s l)
  | .gasConsumeOp o c r => recordGasConsume s o c r
  | .gasRefundOp o r => recordGasRefund s o r
  | .balanceOp a o n r => txRecordBalanceChange s a o n r
  | .storageOp a k o n => some (recordStorageChange s a k o n)
  | .nonceOp a o n => recordNonceChange s a o n

/-- Run a sequence of tracer operations, collecting every emitted line in
order; `none` models a panic anywhere in the sequence. -/
def runOps (s : TransactionTracer) : List TracerOp → Option (TransactionTracer × List Line)
  | [] => some (s, [])
  | op :: rest =>
    (applyOp s op).bind fun p =>
      (runOps p.1 rest).map fun q => (q.1, p.2 ++ q.2)

/-- Whether an operation is a `start_call` or `end_call` invocation. -/
def isCallOp : TracerOp → Bool
  | .startOp _ => true
  | .endOp _ _ => true
  | _ => false

/-- Number of `start_call` invocations in a sequence. -/
def countStarts (ops : List TracerOp) : Nat :=
  ops.countP fun o => match o with | .startOp _ => true | _ => false

/-- A call-boundary event extracted from the emitted lines: a call entry
(`EVM_RUN_CALL`) or a call exit (`EVM_END_CALL`), with its call index. -/
inductive CallEv where
  | run (i : Nat)
  | exit (i : Nat)
deriving DecidableEq

/-- The call-boundary events of an emitted line trace. -/
def callEvs (ls : List Line) : List CallEv :=
  ls.filterMap fun l =>
    match l with
    | .evmRunCall _ i => some (CallEv.run i)
    | .evmEndCall i _ _ => some (CallEv.exit i)
    | _ => none

/-- The entry indices of a call-boundary event list. -/
def runsOf (l : List CallEv) : List Nat :=
  l.filterMap fun e => match e with | .run i => some i | _ => none

/-- The exit indices of a call-boundary event list. -/
def exitsOf (l : List CallEv) : List Nat :=
  l.filterMap fun e => match e with | .exit i => some i | _ => none

/-- The indices of the `EVM_RUN_CALL` lines of a trace, in emission order. -/
def runIdx (ls : List Line) : List Nat :=
  runsOf (callEvs ls)

/-- The indices of the `EVM_END_CALL` lines of a trace, in emission order. -/
def endIdx (ls : List Line) : List Nat :=
  exitsOf (callEvs ls)

/-- Bracket-matching checker: a `run i` pushes `i`; an `exit i` must pop a
matching `i` from the top.  Returns the residual stack when the trace is
well nested with matching indices, `none` otherwise. -/
def checkNest : List CallEv → List Nat → Option (List Nat)
  | [], st => some st
  | CallEv.run i :: rest, st => checkNest rest (i :: st)
  | CallEv.exit _ :: _, [] => none
  | CallEv.exit i :: rest, j :: st2 =>
    if i = j then checkNest rest st2 else none

/-- A lowercase hexadecimal digit character (`0`-`9` or `a`-`f`). -/
def isLowerHexDigit (c : Char) : Bool :=
  (Char.ofNat 48 ≤ c && c ≤ Char.ofNat 57) || (Char.ofNat 97 ≤ c && c ≤ Char.ofNat 102)

/-- A concrete `BlockContext` used to build example tracers. -/
def exBlock : BlockContext :=
  { is_enabled := true, is_finalize_block_enabled := true,
    cumulative_gas_used := 0, log_index_at_block := 0 }

/-- A concrete `Call` used in example traces. -/
def exCall : Call :=
  { call_type := CallType.Call, from_addr := 1, to_addr := 2, value := none,
    gas_limit := 21000, input := none }

/-- The tracer state reached from a fresh tracer by
`start_call; start_call; end_call`: two calls were created (so
`call_index = 2`) but only call `1` is still open. -/
def exNestedState : TransactionTracer :=
  { hash := 0, call_index := 2, last_pop_call_index := some 2, call_stack := [1],
    gas_event_call_stack := [], active_gas_left_at_failure := none,
    log_in_block_index := 0, log_count := 0 }

/-- The tracer state reached from a fresh tracer by
`start_call; failed_call(0, "OutOfGas")`: one open call with a pending
failure whose recorded gas is `0`. -/
def exZeroFailState : TransactionTracer :=
  { hash := 0, call_index := 1, last_pop_call_index := none, call_stack := [1],
    gas_event_call_stack := [], active_gas_left_at_failure := some 0,
    log_in_block_index := 0, log_count := 0 }

/-- A tracer state with a pending failure stored. -/
def exPendingState : TransactionTracer :=
  { hash := 0, call_index := 1, last_pop_call_index := none, call_stack := [1],
    gas_event_call_stack := [], active_gas_left_at_failure := some 5,
    log_in_block_index := 0, log_count := 0 }

/-- A tracer state with no pending failure stored. -/
def exNoPendingState : TransactionTracer :=
  { hash := 0, call_index := 1, last_pop_call_index := none, call_stack := [1],
    gas_event_call_stack := [], active_gas_left_at_failure := none,
    log_in_block_index := 0, log_count := 0 }

/-- A balanced example op sequence: two nested calls, both closed. -/
def exBalancedOps : List TracerOp :=
  [TracerOp.startOp exCall, TracerOp.startOp exCall,
   TracerOp.endOp 5 none, TracerOp.endOp 0 (some [7])]

/-- The final state of `exBalancedOps` run from a fresh tracer. -/
def exBalancedFinal : TransactionTracer :=
  { hash := 0, call_index := 2, last_pop_call_index := some 1, call_stack := [],
    gas_event_call_stack := [], active_gas_left_at_failure := none,
    log_in_block_index := 0, log_count := 0 }

/-- The line trace of `exBalancedOps` run from a fresh tracer. -/
def exBalancedLines : List Line :=
  [Line.evmRunCall CallType.Call 1,
   Line.evmParam CallType.Call 1 1 2 0 21000 [],
   Line.evmRunCall CallType.Call 2,
   Line.evmParam CallType.Call 2 1 2 0 21000 [],
   Line.evmEndCall 2 5 [],
   Line.evmEndCall 1 0 [7]]

/-- A concrete block-accounting state for `end_transaction` examples. -/
def exBlockGas : BlockContext :=
  { is_enabled := true, is_finalize_block_enabled := true,
    cumulative_gas_used := 10, log_index_at_block := 3 }

/-- A concrete receipt for `end_transaction` examples. -/
def exReceipt : TransactionReceipt :=
  { cumulative_gas_used := 25, post_state := 0, logs_bloom := [], logs := [] }

theorem string_append_data (a b : String) : a ++ b = ⟨a.data ++ b.data⟩ := rfl

theorem nat_repr_zero_data : (Nat.repr 0).data = [Char.ofNat 48] := rfl

theorem hexDigitChar_isHex : ∀ k, k < 16 → isLowerHexDigit (hexDigitChar k) = true := by
  decide

theorem byteHexChars_isHex (b : Nat) : ∀ c ∈ byteHexChars b, isLowerHexDigit c = true := by
  intro c hc
  simp only [byteHexChars, List.mem_cons, List.not_mem_nil, or_false] at hc
  rcases hc with rfl | rfl
  · exact hexDigitChar_isHex _ (Nat.mod_lt _ (by norm_num))
  · exact hexDigitChar_isHex _ (Nat.mod_lt _ (by norm_num))

theorem bytesHexChars_isHex : ∀ bs c, c ∈ bytesHexChars bs → isLowerHexDigit c = true := by
  intro bs
  induction bs with
  | nil => intro c hc; simp [bytesHexChars] at hc
  | cons b rest ih =>
    intro c hc
    rcases List.mem_append.mp hc with h | h
    · exact byteHexChars_isHex b c h
    · exact ih c h

theorem natToHexAux_isHex : ∀ fuel n c, c ∈ natToHexAux fuel n → isLowerHexDigit c = true := by
  intro fuel
  induction fuel with
  | zero => intro n c hc; simp [natToHexAux] at hc
  | succ f ih =>
    intro n c hc
    rw [natToHexAux] at hc
    by_cases hn : n < 16
    · rw [if_pos hn] at hc
      simp only [List.mem_singleton] at hc
      subst hc
      exact hexDigitChar_isHex n hn
    · rw [if_neg hn] at hc
      rcases List.mem_append.mp hc with h | h
      · exact ih _ c h
      · simp only [List.mem_singleton] at h
        subst h
        exact hexDigitChar_isHex _ (Nat.mod_lt _ (by norm_num))

/-- C5 counterexample: a zero-valued hash does **not** render as the `.`
sentinel (the `H256` wrapper has no zero case: it renders 64 zero
characters, as the `STORAGE_CHANGE` line with zero `old_data` shows), and
the `u64` numeric fields of `GAS_CHANGE` render in decimal with literal
zeros, not as zero-suppressed hex. -/
theorem C5_counterexample :
    h256Fmt 0 ≠ "." ∧
    (Line.storageChange 1 2 3 0 4).render =
      "STORAGE_CHANGE 1 " ++ addressFmt 2 ++ " " ++ h256Fmt 3 ++ " " ++ h256Fmt 0 ++
      " " ++ h256Fmt 4 ∧
    (Line.gasChange 1 255 0 "failed_execution").render =
      "GAS_CHANGE 1 255 0 failed_execution" ∧
    (Line.gasChange 1 255 0 "failed_execution").render ≠
      "GAS_CHANGE 1 ff . failed_execution" := by
  refine ⟨by decide, by decide, by decide, by decide⟩

/-- C5 (amended): zero-valued addresses and zero-valued big integers render
as the sentinel `.`, empty byte strings render as `.`, and the non-zero
values of those fields render as lowercase hexadecimal without a `0x`
prefix; zero-valued 32-byte hashes, however, render as 64 literal zero hex
characters (no sentinel), and plain `u64`/`usize` fields (call indices, gas
amounts, nonces) render in decimal, zeros included. -/
theorem C5_formatting_conventions :
    addressFmt 0 = "." ∧
    (∀ a, a ≠ 0 → addressFmt a = String.mk (bytesHexChars (beBytes 20 a))) ∧
    u256Fmt 0 = "." ∧
    (∀ v, v ≠ 0 → u256Fmt v = natToHex v) ∧
    hexFmt [] = "." ∧
    (∀ bs, bs ≠ [] → hexFmt bs = String.mk (bytesHexChars bs)) ∧
    (∀ h, h256Fmt h = String.mk (bytesHexChars (beBytes 32 h))) ∧
    (∀ n c, c ∈ (natToHex n).data → isLowerHexDigit c = true) ∧
    (∀ bs c, c ∈ (String.mk (bytesHexChars bs)).data → isLowerHexDigit c = true) := by
  refine ⟨rfl, ?_, rfl, ?_, rfl, ?_, fun h => rfl, ?_, ?_⟩
  · intro a ha; simp [addressFmt, ha]
  · intro v hv; simp [u256Fmt, hv]
  · intro bs hbs; simp [hexFmt, hbs]
  · intro n c hc; exact natToHexAux_isHex (n + 1) n c hc
  · intro bs c hc; exact bytesHexChars_isHex bs c hc

/-- C5 witness: concrete instances of the hypothesis-guarded conjuncts. -/
theorem C5_witness :
    addressFmt 5 = String.mk (bytesHexChars (beBytes 20 5)) ∧
    u256Fmt 255 = natToHex 255 :=
  ⟨C5_formatting_conventions.2.1 5 (by decide),
   C5_formatting_conventions.2.2.2.1 255 (by decide)⟩

/-- C9: the reason-to-token mappings are pure functions, injective on the
values that format successfully; the sentinels (`BalanceChangeReason.Ignored`,
`BalanceChangeReason.CallBalanceOverride`, `GasChangeReason.Ignored`)
format to `none` (a fatal panic in the source) and every non-sentinel value
formats to a token. -/
theorem C9_reason_token_injective :
    (∀ a b : BalanceChangeReason, (BalanceChangeReason.displayStr a).isSome = true →
      BalanceChangeReason.displayStr a = BalanceChangeReason.displayStr b → a = b) ∧
    BalanceChangeReason.displayStr BalanceChangeReason.Ignored = none ∧
    BalanceChangeReason.displayStr BalanceChangeReason.CallBalanceOverride = none ∧
    (∀ a : BalanceChangeReason, a ≠ BalanceChangeReason.Ignored →
      a ≠ BalanceChangeReason.CallBalanceOverride →
      (BalanceChangeReason.displayStr a).isSome = true) ∧
    (∀ a b : GasChangeReason, (GasChangeReason.displayStr a).isSome = true →
      GasChangeReason.displayStr a = GasChangeReason.displayStr b → a = b) ∧
    GasChangeReason.displayStr GasChangeReason.Ignored = none ∧
    (∀ a : GasChangeReason, a ≠ GasChangeReason.Ignored →
      (GasChangeReason.displayStr a).isSome = true) := by
  refine ⟨?_, rfl, rfl, ?_, ?_, rfl, ?_⟩ <;> decide

/-- C9 witness: the guarded conjuncts applied at concrete reasons. -/
theorem C9_witness :
    (BalanceChangeReason.displayStr BalanceChangeReason.Transfer).isSome = true ∧
    GasChangeReason.Call = GasChangeReason.Call :=
  ⟨C9_reason_token_injective.2.2.2.1 BalanceChangeReason.Transfer (by decide) (by decide),
   C9_reason_token_injective.2.2.2.2.1 GasChangeReason.Call GasChangeReason.Call
     (by decide) rfl⟩

/-- C3: the pending-failure slot holds at most one failure, enforced
fatally: `failed_call` with a pending failure stored panics (before
emitting `EVM_CALL_FAILED`), and `end_failed_call` with no pending failure
panics (before emitting anything). -/
theorem C3_pending_failure_invariant (s : TransactionTracer) :
    (∀ g err, s.active_gas_left_at_failure.isSome = true → failedCall s g err = none) ∧
    (∀ tag, s.active_gas_left_at_failure = none → endFailedCall s tag = none) := by
  constructor
  · intro g err h
    simp [failedCall, h]
  · intro tag h
    simp [endFailedCall, h]

/-- C3 witness: both fatal paths at concrete states. -/
theorem C3_witness :
    failedCall exPendingState 1 "boom" = none ∧
    endFailedCall exNoPendingState "end_failed_call_test" = none :=
  ⟨(C3_pending_failure_invariant exPendingState).1 1 "boom" (by decide),
   (C3_pending_failure_invariant exNoPendingState).2 "end_failed_call_test" (by decide)⟩

/-- C8: zero-delta gas consumption/refund and `Ignored`-reason balance/gas
changes emit nothing and change no tracer state. -/
theorem C8_zero_delta_and_ignored_suppressed :
    (∀ s gas_old reason, recordGasConsume s gas_old 0 reason = some (s, [])) ∧
    (∀ s gas_old, recordGasRefund s gas_old 0 = some (s, [])) ∧
    (∀ s a o n, txRecordBalanceChange s a o n BalanceChangeReason.Ignored = some (s, [])) ∧
    (∀ a o n, blockTracerRecordBalanceChange a o n BalanceChangeReason.Ignored = some []) ∧
    (∀ ci o n, recordGasChange ci o n GasChangeReason.Ignored = some []) := by
  refine ⟨?_, ?_, ?_, ?_, ?_⟩ <;> intros <;>
    simp [recordGasConsume, recordGasRefund, txRecordBalanceChange,
      recordBalanceChangeLine, blockTracerRecordBalanceChange, recordGasChange]

/-- C10: `reverted_call` on an empty call stack does not panic: it emits
`EVM_CALL_FAILED 0 <gas_left> Reverted` then `EVM_REVERTED 0` (call index
`0` from the empty-stack rule) and returns the state unchanged (the source
takes `&self`). -/
theorem C10_reverted_call_on_empty_stack (s : TransactionTracer) (gas_left : Nat)
    (hst : s.call_stack = []) (hg : gas_left < u64size) :
    revertedCall s gas_left =
      some (s, [Line.evmCallFailed 0 gas_left "Reverted", Line.evmReverted 0]) ∧
    (Line.evmCallFailed 0 gas_left "Reverted").render =
      "EVM_CALL_FAILED 0 " ++ Nat.repr gas_left ++ " Reverted" ∧
    (Line.evmReverted 0).render = "EVM_REVERTED 0" := by
  have ha : activeCallIndex s = 0 := by simp [activeCallIndex, hst]
  refine ⟨?_, ?_, rfl⟩
  · simp [revertedCall, u256AsU64, hg, ha]
  · simp [Line.render, string_append_data, nat_repr_zero_data]

/-- C10 witness: the theorem at a concrete empty-stack state. -/
theorem C10_witness :
    revertedCall exBalancedFinal 100 =
      some (exBalancedFinal, [Line.evmCallFailed 0 100 "Reverted", Line.evmReverted 0]) :=
  (C10_reverted_call_on_empty_stack exBalancedFinal 100 rfl (by decide)).1

/-- C7: `end_transaction` emits `END_APPLY_TRX` carrying the incremental
gas delta (receipt cumulative minus block cumulative) and the receipt's
absolute cumulative gas, then advances the block's `cumulative_gas_used`
to the receipt's value, leaving every other `BlockContext` field
(including `log_index_at_block`) unchanged. -/
theorem C7_end_transaction_gas_accounting (b : BlockContext) (r : TransactionReceipt)
    (hle : b.cumulative_gas_used ≤ r.cumulative_gas_used)
    (hlt : r.cumulative_gas_used < u64size) :
    endTransaction b r =
      ({ b with cumulative_gas_used := r.cumulative_gas_used },
       [Line.endApplyTrx (r.cumulative_gas_used - b.cumulative_gas_used)
          (if r.post_state = 0 then [] else beBytes 32 r.post_state)
          r.cumulative_gas_used r.logs_bloom r.logs]) ∧
    (endTransaction b r).1.cumulative_gas_used = r.cumulative_gas_used ∧
    (endTransaction b r).1.log_index_at_block = b.log_index_at_block ∧
    (endTransaction b r).1.is_enabled = b.is_enabled ∧
    (endTransaction b r).1.is_finalize_block_enabled = b.is_finalize_block_enabled := by
  have hc : b.cumulative_gas_used < u64size := lt_of_le_of_lt hle hlt
  have harith :
      (r.cumulative_gas_used % u64size + u64size - b.cumulative_gas_used % u64size) %
        u64size = r.cumulative_gas_used - b.cumulative_gas_used := by
    rw [Nat.mod_eq_of_lt hlt, Nat.mod_eq_of_lt hc]
    have h1 : r.cumulative_gas_used + u64size - b.cumulative_gas_used =
        r.cumulative_gas_used - b.cumulative_gas_used + u64size := by omega
    rw [h1, Nat.add_mod_right, Nat.mod_eq_of_lt (by omega)]
  refine ⟨?_, rfl, rfl, rfl, rfl⟩
  simp [endTransaction, harith]

/-- C7 witness: concrete block and receipt. -/
theorem C7_witness :
    (endTransaction exBlockGas exReceipt).1.cumulative_gas_used = 25 ∧
    (endTransaction exBlockGas exReceipt).1.log_index_at_block = 3 := by
  have h := C7_end_transaction_gas_accounting exBlockGas exReceipt (by decide) (by decide)
  exact ⟨h.2.1, h.2.2.1⟩

/-- C1 counterexample: after `start_call; start_call; end_call` the active
call is `1` but the monotonic counter is `2`; `record_before_call_gas_event`
pushes and prints `3` (`call_index + 1`), not `2` (`active_call_index + 1`)
as the claim states. -/
theorem C1_counterexample :
    (runOps (exBlock.transactionTracer 0)
      [TracerOp.startOp exCall, TracerOp.startOp exCall,
       TracerOp.endOp 0 none]).map Prod.fst = some exNestedState ∧
    activeCallIndex exNestedState + 1 = 2 ∧
    (recordBeforeCallGasEvent exNestedState 7).2 = [Line.gasEvent 1 3 "before_call" 7] ∧
    (recordBeforeCallGasEvent exNestedState 7).2 ≠ [Line.gasEvent 1 2 "before_call" 7] ∧
    (recordBeforeCallGasEvent exNestedState 7).1.gas_event_call_stack ≠
      [activeCallIndex exNestedState + 1] := by
  decide

/-- C1 (amended): `record_before_call_gas_event(amount)` pushes
`call_index + 1` — the prospective index of the *next* call the monotonic
counter will assign — onto the gas-event stack and emits
`GAS_EVENT <active_idx> <call_index+1> before_call <amount>`; the pushed
value equals `active_call_index + 1` exactly when the active call is the
most recently started one. -/
theorem C1_before_call_gas_event (s : TransactionTracer) (gas_value : Nat)
    (hci : s.call_index + 1 < u64size) (hgv : gas_value < u64size) :
    recordBeforeCallGasEvent s gas_value =
      ({ s with gas_event_call_stack := (s.call_index + 1) :: s.gas_event_call_stack },
       [Line.gasEvent (activeCallIndex s) (s.call_index + 1) "before_call" gas_value]) ∧
    (Line.gasEvent (activeCallIndex s) (s.call_index + 1) "before_call" gas_value).render =
      "GAS_EVENT " ++ Nat.repr (activeCallIndex s) ++ " " ++
      Nat.repr (s.call_index + 1) ++ " before_call " ++ Nat.repr gas_value ∧
    (s.call_stack.head? = some s.call_index →
      s.call_index + 1 = activeCallIndex s + 1) := by
  refine ⟨?_, ?_, ?_⟩
  · simp [recordBeforeCallGasEvent, Nat.mod_eq_of_lt hci, Nat.mod_eq_of_lt hgv]
  · simp [Line.render, string_append_data]
  · intro hh
    cases hcs : s.call_stack with
    | nil => rw [hcs] at hh; cases hh
    | cons i t =>
      rw [hcs] at hh
      simp only [List.head?, Option.some.injEq] at hh
      simp [activeCallIndex, hcs, hh]

/-- C1 witness: the amended behaviour at a concrete state. -/
theorem C1_witness :
    recordBeforeCallGasEvent exNoPendingState 9 =
      ({ exNoPendingState with gas_event_call_stack := [2] },
       [Line.gasEvent 1 2 "before_call" 9]) :=
  (C1_before_call_gas_event exNoPendingState 9 (by decide) (by decide)).1

/-- C4 counterexample: with a pending failure holding gas `0` (reachable by
`start_call; failed_call(0, ...)`), `end_failed_call` emits only
`EVM_END_CALL 1 0 .` — the `GAS_CHANGE` record is suppressed because the
zero delta is filtered by `record_gas_consume` — contradicting the claim
that a `GAS_CHANGE` line is always emitted first. -/
theorem C4_counterexample :
    (runOps (exBlock.transactionTracer 0)
      [TracerOp.startOp exCall, TracerOp.failedOp 0 "OutOfGas"]).map Prod.fst =
      some exZeroFailState ∧
    (endFailedCall exZeroFailState "on_test").map Prod.snd =
      some [Line.evmEndCall 1 0 []] ∧
    (endFailedCall exZeroFailState "on_test").map Prod.snd ≠
      some [Line.gasChange 1 0 0 "failed_execution", Line.evmEndCall 1 0 []] := by
  decide

/-- C4 (amended): `end_failed_call` with a pending failure holding gas `g`
and top-of-stack index `i` clears the pending failure and, when `g ≠ 0`,
emits `GAS_CHANGE <i> <g> 0 failed_execution` followed by
`EVM_END_CALL <i> 0 .`; when `g = 0` the zero-delta `GAS_CHANGE` is
suppressed and only `EVM_END_CALL <i> 0 .` is emitted. -/
theorem C4_end_failed_call (s : TransactionTracer) (g j : Nat) (t : List Nat)
    (tag : String)
    (hp : s.active_gas_left_at_failure = some g)
    (hst : s.call_stack = j :: t)
    (hg : g < u64size) :
    endFailedCall s tag =
      some ({ s with
                active_gas_left_at_failure := none
                call_stack := t
                last_pop_call_index := some j },
        (if g = 0 then [] else [Line.gasChange j g 0 "failed_execution"]) ++
        [Line.evmEndCall j 0 []]) ∧
    (Line.gasChange j g 0 "failed_execution").render =
      "GAS_CHANGE " ++ Nat.repr j ++ " " ++ Nat.repr g ++ " 0 failed_execution" ∧
    (Line.evmEndCall j 0 []).render = "EVM_END_CALL " ++ Nat.repr j ++ " 0 ." := by
  have hzero : (0 : Nat) < u64size := by decide
  have ha : activeCallIndex { s with active_gas_left_at_failure := none } = j := by
    simp [activeCallIndex, hst]
  have harith : (g % u64size + u64size - g % u64size) % u64size = 0 := by
    have h1 : g % u64size + u64size - g % u64size = u64size := by omega
    rw [h1, Nat.mod_self]
  refine ⟨?_, ?_, ?_⟩
  · by_cases hg0 : g = 0
    · subst hg0
      simp [endFailedCall, hp, hg, recordGasConsume, endCall, hst, u256AsU64, hzero]
    · simp [endFailedCall, hp, hg, recordGasConsume, hg0, recordGasChange,
        GasChangeReason.displayStr, activeCallIndex, Nat.mod_eq_of_lt hg, harith,
        endCall, hst, u256AsU64, hzero]
  · simp [Line.render, string_append_data, nat_repr_zero_data]
  · simp [Line.render, string_append_data, nat_repr_zero_data, hexFmt]

/-- C4 witness: the amended behaviour at a concrete pending-failure state
with non-zero gas. -/
theorem C4_witness :
    endFailedCall exPendingState "finalize" =
      some ({ exPendingState with
                active_gas_left_at_failure := none
                call_stack := []
                last_pop_call_index := some 1 },
        [Line.gasChange 1 5 0 "failed_execution", Line.evmEndCall 1 0 []]) := by
  have h := C4_end_failed_call exPendingState 5 1 [] "finalize" rfl rfl (by decide)
  simpa using h.1

theorem runOps_cons_some {s s' : TransactionTracer} {op : TracerOp}
    {ops : List TracerOp} {evs : List Line}
    (h : runOps s (op :: ops) = some (s', evs)) :
    ∃ s1 ls1 s2 ls2, applyOp s op = some (s1, ls1) ∧ runOps s1 ops = some (s2, ls2) ∧
      s' = s2 ∧ evs = ls1 ++ ls2 := by
  simp only [runOps, Option.bind_eq_some, Option.map_eq_some'] at h
  obtain ⟨p, hop, q, hrest, heq⟩ := h
  obtain ⟨s1, ls1⟩ := p
  obtain ⟨s2, ls2⟩ := q
  cases heq
  exact ⟨s1, ls1, s2, ls2, hop, hrest, rfl, rfl⟩

theorem endCall_some {s : TransactionTracer} {g : Nat} {rd : Option (List Nat)}
    {p : TransactionTracer × List Line} (h : endCall s g rd = some p) :
    ∃ j t, s.call_stack = j :: t ∧ g < u64size ∧
      p = ({ s with call_stack := t, last_pop_call_index := some j },
           [Line.evmEndCall j g (rd.getD [])]) := by
  cases hst : s.call_stack with
  | nil => rw [endCall, hst] at h; cases h
  | cons j t =>
    rw [endCall, hst] at h
    by_cases hg : g < u64size
    · refine ⟨j, t, rfl, hg, ?_⟩
      simp only [u256AsU64, if_pos hg, Option.map_some', Option.some.injEq] at h
      exact h.symm
    · simp [u256AsU64, if_neg hg] at h

theorem endFailedCall_some {s : TransactionTracer} {tag : String}
    {p : TransactionTracer × List Line} (h : endFailedCall s tag = some p) :
    ∃ g j t, s.active_gas_left_at_failure = some g ∧ g < u64size ∧
      s.call_stack = j :: t ∧
      p.1 = { s with
              active_gas_left_at_failure := none
              call_stack := t
              last_pop_call_index := some j } := by
  cases hp : s.active_gas_left_at_failure with
  | none => rw [endFailedCall, hp] at h; cases h
  | some g =>
    simp only [endFailedCall, hp] at h
    by_cases hg : g < u64size
    · rw [if_pos hg] at h
      simp only [Option.bind_eq_some, Option.map_eq_some'] at h
      obtain ⟨q, hq, r, hr, heq⟩ := h
      have hq1 : q.1 = { s with active_gas_left_at_failure := none } := by
        rw [recordGasConsume] at hq
        by_cases hg0 : g ≠ 0
        · rw [if_pos hg0] at hq
          obtain ⟨ls, _, hls⟩ := Option.map_eq_some'.mp hq
          rw [← hls]
        · rw [if_neg hg0] at hq
          cases hq
          rfl
      obtain ⟨j, t, hjt, _, hr2⟩ := endCall_some hr
      rw [hq1] at hjt
      refine ⟨g, j, t, rfl, hg, hjt, ?_⟩
      rw [← heq]
      simp only [hr2, hq1]
    · rw [if_neg hg] at h
      cases h

theorem recordGasConsume_fst {s : TransactionTracer} {a b : Nat} {r : GasChangeReason}
    {p : TransactionTracer × List Line} (h : recordGasConsume s a b r = some p) :
    p.1 = s := by
  rw [recordGasConsume] at h
  by_cases hb : b ≠ 0
  · rw [if_pos hb] at h
    obtain ⟨ls, _, hls⟩ := Option.map_eq_some'.mp h
    rw [← hls]
  · rw [if_neg hb] at h
    cases h
    rfl

theorem recordGasRefund_fst {s : TransactionTracer} {a b : Nat}
    {p : TransactionTracer × List Line} (h : recordGasRefund s a b = some p) :
    p.1 = s := by
  rw [recordGasRefund] at h
  by_cases hb : b ≠ 0
  · rw [if_pos hb] at h
    obtain ⟨ls, _, hls⟩ := Option.map_eq_some'.mp h
    rw [← hls]
  · rw [if_neg hb] at h
    cases h
    rfl

theorem txRecordBalanceChange_fst {s : TransactionTracer} {a o n : Nat}
    {r : BalanceChangeReason} {p : TransactionTracer × List Line}
    (h : txRecordBalanceChange s a o n r = some p) : p.1 = s := by
  rw [txRecordBalanceChange] at h
  obtain ⟨ls, _, hls⟩ := Option.map_eq_some'.mp h
  rw [← hls]

theorem revertedCall_fst {s : TransactionTracer} {g : Nat}
    {p : TransactionTracer × List Line} (h : revertedCall s g = some p) :
    p.1 = s := by
  rw [revertedCall] at h
  obtain ⟨x, _, hx⟩ := Option.map_eq_some'.mp h
  rw [← hx]

theorem failedCall_fst {s : TransactionTracer} {g : Nat} {e : String}
    {p : TransactionTracer × List Line} (h : failedCall s g e = some p) :
    p.1 = { s with active_gas_left_at_failure := some g } := by
  rw [failedCall] at h
  by_cases hp : s.active_gas_left_at_failure.isSome
  · rw [if_pos hp] at h
    cases h
  · rw [if_neg hp] at h
    obtain ⟨x, _, hx⟩ := Option.map_eq_some'.mp h
    rw [← hx]

theorem recordNonceChange_fst {s : TransactionTracer} {a o n : Nat}
    {p : TransactionTracer × List Line} (h : recordNonceChange s a o n = some p) :
    p.1 = s := by
  rw [recordNonceChange] at h
  simp only [Option.bind_eq_some, Option.map_eq_some'] at h
  obtain ⟨x, _, y, _, hy⟩ := h
  rw [← hy]

theorem recordAfterCallGasEvent_fst {s : TransactionTracer} {v : Nat}
    {p : TransactionTracer × List Line} (h : recordAfterCallGasEvent s v = some p) :
    p.1.call_stack = s.call_stack ∧ p.1.call_index = s.call_index := by
  cases hst : s.gas_event_call_stack with
  | nil => rw [recordAfterCallGasEvent, hst] at h; cases h
  | cons i rest =>
    rw [recordAfterCallGasEvent, hst] at h
    cases h
    exact ⟨rfl, rfl⟩

theorem callEvs_append (a b : List Line) : callEvs (a ++ b) = callEvs a ++ callEvs b := by
  simp [callEvs]

theorem runOps_call_trace :
    ∀ (ops : List TracerOp) (s s' : TransactionTracer) (evs : List Line),
      (∀ o ∈ ops, isCallOp o = true) →
      runOps s ops = some (s', evs) →
      s.call_index + countStarts ops < u64size →
      runIdx evs = List.range' (s.call_index + 1) (countStarts ops) ∧
      checkNest (callEvs evs) s.call_stack = some s'.call_stack ∧
      s'.call_index = s.call_index + countStarts ops := by
  intro ops
  induction ops with
  | nil =>
    intro s s' evs _ hrun _
    simp only [runOps, Option.some.injEq, Prod.mk.injEq] at hrun
    obtain ⟨rfl, rfl⟩ := hrun
    simp [runIdx, callEvs, runsOf, checkNest, countStarts]
  | cons op rest ih =>
    intro s s' evs hcall hrun hcnt
    obtain ⟨s1, ls1, s2, ls2, hop, hrest, rfl, rfl⟩ := runOps_cons_some hrun
    have hcallop : isCallOp op = true := hcall op (List.mem_cons_self op rest)
    have hcallrest : ∀ o ∈ rest, isCallOp o = true := fun o ho =>
      hcall o (List.mem_cons_of_mem op ho)
    cases op with
    | startOp c =>
      have hp : (s1, ls1) = startCall s c := by
        simpa [applyOp] using hop.symm
      have hcs : countStarts (TracerOp.startOp c :: rest) = countStarts rest + 1 := by
        simp [countStarts, List.countP_cons]
      have hlt : s.call_index + 1 < u64size := by
        rw [hcs] at hcnt; omega
      have hmod : (s.call_index + 1) % u64size = s.call_index + 1 := Nat.mod_eq_of_lt hlt
      have hs1 : s1 = { s with
                          call_index := s.call_index + 1
                          call_stack := (s.call_index + 1) :: s.call_stack } := by
        have h2 := congrArg Prod.fst hp
        simpa [startCall, hmod] using h2
      have hl1 : ls1 = [Line.evmRunCall c.call_type (s.call_index + 1),
          Line.evmParam c.call_type (s.call_index + 1) c.from_addr c.to_addr
            (c.value.getD 0) c.gas_limit (c.input.getD [])] := by
        have h2 := congrArg Prod.snd hp
        simpa [startCall, hmod] using h2
      subst hs1 hl1
      have hcnt' : s.call_index + 1 + countStarts rest < u64size := by
        rw [hcs] at hcnt; omega
      obtain ⟨ih1, ih2, ih3⟩ := ih _ s' ls2 hcallrest hrest hcnt'
      refine ⟨?_, ?_, ?_⟩
      · rw [hcs, List.range'_succ]
        have hruns : runIdx
            ([Line.evmRunCall c.call_type (s.call_index + 1),
              Line.evmParam c.call_type (s.call_index + 1) c.from_addr c.to_addr
                (c.value.getD 0) c.gas_limit (c.input.getD [])] ++ ls2) =
            (s.call_index + 1) :: runIdx ls2 := by
          simp [runIdx, callEvs, runsOf]
        rw [hruns]
        refine congrArg _ ?_
        simpa using ih1
      · rw [callEvs_append]
        have hone : callEvs [Line.evmRunCall c.call_type (s.call_index + 1),
            Line.evmParam c.call_type (s.call_index + 1) c.from_addr c.to_addr
              (c.value.getD 0) c.gas_limit (c.input.getD [])] =
            [CallEv.run (s.call_index + 1)] := rfl
        rw [hone]
        show checkNest (callEvs ls2) ((s.call_index + 1) :: s.call_stack) =
          some s'.call_stack
        simpa using ih2
      · rw [hcs]
        simp only [] at ih3
        omega
    | endOp g rd =>
      have hec : endCall s g rd = some (s1, ls1) := by simpa [applyOp] using hop
      obtain ⟨j, t, hjt, hg, hpeq⟩ := endCall_some hec
      have hs1 : s1 = { s with call_stack := t, last_pop_call_index := some j } :=
        congrArg Prod.fst hpeq
      have hl1 : ls1 = [Line.evmEndCall j g (rd.getD [])] := congrArg Prod.snd hpeq
      subst hs1 hl1
      have hcs : countStarts (TracerOp.endOp g rd :: rest) = countStarts rest := by
        simp [countStarts, List.countP_cons]
      have hcnt' : s.call_index + countStarts rest < u64size := by
        rw [hcs] at hcnt; exact hcnt
      obtain ⟨ih1, ih2, ih3⟩ := ih _ s' ls2 hcallrest hrest hcnt'
      refine ⟨?_, ?_, ?_⟩
      · rw [hcs]
        have hruns : runIdx ([Line.evmEndCall j g (rd.getD [])] ++ ls2) = runIdx ls2 := by
          simp [runIdx, callEvs, runsOf]
        rw [hruns]
        simpa using ih1
      · rw [callEvs_append, hjt]
        have hone : callEvs [Line.evmEndCall j g (rd.getD [])] = [CallEv.exit j] := rfl
        rw [hone]
        simpa [checkNest] using ih2
      · rw [hcs]
        simpa using ih3
    | revertedOp g => simp [isCallOp] at hcallop
    | failedOp g e => simp [isCallOp] at hcallop
    | endFailedOp tg => simp [isCallOp] at hcallop
    | beforeGasOp v => simp [isCallOp] at hcallop
    | afterGasOp v => simp [isCallOp] at hcallop
    | logOp l => simp [isCallOp] at hcallop
    | gasConsumeOp a b r => simp [isCallOp] at hcallop
    | gasRefundOp a b => simp [isCallOp] at hcallop
    | balanceOp a o n r => simp [isCallOp] at hcallop
    | storageOp a k o n => simp [isCallOp] at hcallop
    | nonceOp a o n => simp [isCallOp] at hcallop

theorem checkNest_perm :
    ∀ (l : List CallEv) (st st' : List Nat),
      checkNest l st = some st' →
      List.Perm (exitsOf l ++ st') (runsOf l ++ st) := by
  intro l
  induction l with
  | nil =>
    intro st st' h
    simp only [checkNest, Option.some.injEq] at h
    subst h
    simp [runsOf, exitsOf]
  | cons e rest ih =>
    intro st st' h
    cases e with
    | run i =>
      rw [checkNest] at h
      have hp := ih _ _ h
      simp only [runsOf, exitsOf, List.filterMap_cons] at hp ⊢
      exact hp.trans List.perm_middle
    | exit i =>
      cases st with
      | nil => rw [checkNest] at h; cases h
      | cons j st2 =>
        rw [checkNest] at h
        by_cases hij : i = j
        · rw [if_pos hij] at h
          subst hij
          have hp := ih _ _ h
          simp only [runsOf, exitsOf, List.filterMap_cons] at hp ⊢
          refine List.Perm.trans ?_ List.perm_middle.symm
          exact hp.cons i
        · rw [if_neg hij] at h
          cases h

/-- C2: for any LIFO-respecting sequence of `start_call`/`end_call`
invocations on a fresh transaction tracer, the `EVM_RUN_CALL` indices are
exactly `1, 2, ..., n` (unique, strictly increasing, starting at `1`), and
the `EVM_END_CALL` indices match them in push/pop (pre-order/post-order)
correspondence: the bracket checker accepts the trace, ending exactly in
the tracer's remaining stack, and when every call was closed the end
indices are a permutation of the run indices. -/
theorem C2_call_index_discipline (b : BlockContext) (hash : Nat) (ops : List TracerOp)
    (s' : TransactionTracer) (evs : List Line)
    (hcall : ∀ o ∈ ops, isCallOp o = true)
    (hrun : runOps (b.transactionTracer hash) ops = some (s', evs))
    (hcnt : countStarts ops < u64size) :
    runIdx evs = List.range' 1 (countStarts ops) ∧
    (runIdx evs).Pairwise (· < ·) ∧
    checkNest (callEvs evs) [] = some s'.call_stack ∧
    (s'.call_stack = [] → List.Perm (endIdx evs) (runIdx evs)) := by
  have h := runOps_call_trace ops (b.transactionTracer hash) s' evs hcall hrun
    (by show (0 : Nat) + countStarts ops < u64size; omega)
  obtain ⟨h1, h2, h3⟩ := h
  have h1' : runIdx evs = List.range' 1 (countStarts ops) := by
    simpa [BlockContext.transactionTracer] using h1
  have h2' : checkNest (callEvs evs) [] = some s'.call_stack := by
    simpa [BlockContext.transactionTracer] using h2
  refine ⟨h1', ?_, h2', ?_⟩
  · rw [h1']
    exact List.pairwise_lt_range' 1 (countStarts ops)
  · intro hempty
    have hp := checkNest_perm (callEvs evs) [] s'.call_stack h2'
    rw [hempty] at hp
    simpa [endIdx, runIdx] using hp

/-- C2 witness: the balanced two-call example. -/
theorem C2_witness :
    runIdx exBalancedLines = List.range' 1 2 ∧
    (runIdx exBalancedLines).Pairwise (· < ·) ∧
    checkNest (callEvs exBalancedLines) [] = some exBalancedFinal.call_stack ∧
    (exBalancedFinal.call_stack = [] →
      List.Perm (endIdx exBalancedLines) (runIdx exBalancedLines)) :=
  C2_call_index_discipline exBlock 0 exBalancedOps exBalancedFinal exBalancedLines
    (by decide) (by decide) (by decide)

theorem applyOp_stack_shape {s : TransactionTracer} {op : TracerOp}
    {p : TransactionTracer × List Line} (h : applyOp s op = some p) :
    (p.1.call_index = (s.call_index + 1) % u64size ∧
      p.1.call_stack = ((s.call_index + 1) % u64size) :: s.call_stack ∧
      ∀ rest, countStarts (op :: rest) = countStarts rest + 1) ∨
    ((∃ j t, s.call_stack = j :: t ∧ p.1.call_stack = t) ∧
      p.1.call_index = s.call_index ∧
      ∀ rest, countStarts (op :: rest) = countStarts rest) ∨
    (p.1.call_stack = s.call_stack ∧ p.1.call_index = s.call_index ∧
      ∀ rest, countStarts (op :: rest) = countStarts rest) := by
  cases op with
  | startOp c =>
    left
    have hp : p = startCall s c := by simpa [applyOp] using h.symm
    subst hp
    exact ⟨rfl, rfl, fun rest => by simp [countStarts, List.countP_cons]⟩
  | endOp g rd =>
    right; left
    have hec : endCall s g rd = some p := by simpa [applyOp] using h
    obtain ⟨j, t, hjt, _, hpe⟩ := endCall_some hec
    subst hpe
    exact ⟨⟨j, t, hjt, rfl⟩, rfl, fun rest => by simp [countStarts, List.countP_cons]⟩
  | endFailedOp tg =>
    right; left
    have hec : endFailedCall s tg = some p := by simpa [applyOp] using h
    obtain ⟨g, j, t, _, _, hjt, hp1⟩ := endFailedCall_some hec
    exact ⟨⟨j, t, hjt, by rw [hp1]⟩, by rw [hp1],
      fun rest => by simp [countStarts, List.countP_cons]⟩
  | revertedOp g =>
    right; right
    have hf := revertedCall_fst (show revertedCall s g = some p by simpa [applyOp] using h)
    exact ⟨by rw [hf], by rw [hf], fun rest => by simp [countStarts, List.countP_cons]⟩
  | failedOp g e =>
    right; right
    have hf := failedCall_fst (show failedCall s g e = some p by simpa [applyOp] using h)
    exact ⟨by rw [hf], by rw [hf], fun rest => by simp [countStarts, List.countP_cons]⟩
  | beforeGasOp v =>
    right; right
    have hp : p = recordBeforeCallGasEvent s v := by simpa [applyOp] using h.symm
    subst hp
    exact ⟨rfl, rfl, fun rest => by simp [countStarts, List.countP_cons]⟩
  | afterGasOp v =>
    right; right
    obtain ⟨h1, h2⟩ := recordAfterCallGasEvent_fst
      (show recordAfterCallGasEvent s v = some p by simpa [applyOp] using h)
    exact ⟨h1, h2, fun rest => by simp [countStarts, List.countP_cons]⟩
  | logOp l =>
    right; right
    have hp : p = recordLog s l := by simpa [applyOp] using h.symm
    subst hp
    exact ⟨rfl, rfl, fun rest => by simp [countStarts, List.countP_cons]⟩
  | gasConsumeOp a b r =>
    right; right
    have hf := recordGasConsume_fst
      (show recordGasConsume s a b r = some p by simpa [applyOp] using h)
    exact ⟨by rw [hf], by rw [hf], fun rest => by simp [countStarts, List.countP_cons]⟩
  | gasRefundOp a b =>
    right; right
    have hf := recordGasRefund_fst
      (show recordGasRefund s a b = some p by simpa [applyOp] using h)
    exact ⟨by rw [hf], by rw [hf], fun rest => by simp [countStarts, List.countP_cons]⟩
  | balanceOp a o n r =>
    right; right
    have hf := txRecordBalanceChange_fst
      (show txRecordBalanceChange s a o n r = some p by simpa [applyOp] using h)
    exact ⟨by rw [hf], by rw [hf], fun rest => by simp [countStarts, List.countP_cons]⟩
  | storageOp a k o n =>
    right; right
    have hp : p = recordStorageChange s a k o n := by simpa [applyOp] using h.symm
    subst hp
    exact ⟨rfl, rfl, fun rest => by simp [countStarts, List.countP_cons]⟩
  | nonceOp a o n =>
    right; right
    have hf := recordNonceChange_fst
      (show recordNonceChange s a o n = some p by simpa [applyOp] using h)
    exact ⟨by rw [hf], by rw [hf], fun rest => by simp [countStarts, List.countP_cons]⟩

theorem runOps_bounded :
    ∀ (ops : List TracerOp) (s s' : TransactionTracer) (evs : List Line),
      runOps s ops = some (s', evs) →
      (∀ i ∈ s.call_stack, 1 ≤ i ∧ i ≤ s.call_index) →
      s.call_index + countStarts ops < u64size →
      (∀ i ∈ s'.call_stack, 1 ≤ i ∧ i ≤ s'.call_index) ∧
      s'.call_index = s.call_index + countStarts ops := by
  intro ops
  induction ops with
  | nil =>
    intro s s' evs hrun hinv _
    simp only [runOps, Option.some.injEq, Prod.mk.injEq] at hrun
    obtain ⟨rfl, rfl⟩ := hrun
    exact ⟨hinv, by simp [countStarts]⟩
  | cons op rest ih =>
    intro s s' evs hrun hinv hcnt
    obtain ⟨s1, ls1, s2, ls2, hop, hrest, rfl, rfl⟩ := runOps_cons_some hrun
    rcases applyOp_stack_shape hop with
      ⟨hci, hcs, hcount⟩ | ⟨⟨j, t, hjt, hcs⟩, hci, hcount⟩ | ⟨hcs, hci, hcount⟩
    · have hcnt1 : s.call_index + 1 < u64size := by
        rw [hcount rest] at hcnt; omega
      have hmod : (s.call_index + 1) % u64size = s.call_index + 1 :=
        Nat.mod_eq_of_lt hcnt1
      have hinv1 : ∀ i ∈ s1.call_stack, 1 ≤ i ∧ i ≤ s1.call_index := by
        rw [hcs, hci, hmod]
        intro i hi
        rcases List.mem_cons.mp hi with rfl | hi'
        · omega
        · have := hinv i hi'
          omega
      have hcnt' : s1.call_index + countStarts rest < u64size := by
        rw [hci, hmod]
        rw [hcount rest] at hcnt
        omega
      obtain ⟨hA, hB⟩ := ih s1 s' ls2 hrest hinv1 hcnt'
      refine ⟨hA, ?_⟩
      rw [hB, hci, hmod, hcount rest]
      omega
    · have hinv1 : ∀ i ∈ s1.call_stack, 1 ≤ i ∧ i ≤ s1.call_index := by
        rw [hcs, hci]
        intro i hi
        exact hinv i (by rw [hjt]; exact List.mem_cons_of_mem j hi)
      have hcnt' : s1.call_index + countStarts rest < u64size := by
        rw [hci]
        rw [hcount rest] at hcnt
        exact hcnt
      obtain ⟨hA, hB⟩ := ih s1 s' ls2 hrest hinv1 hcnt'
      refine ⟨hA, ?_⟩
      rw [hB, hci, hcount rest]
    · have hinv1 : ∀ i ∈ s1.call_stack, 1 ≤ i ∧ i ≤ s1.call_index := by
        rw [hcs, hci]
        exact hinv
      have hcnt' : s1.call_index + countStarts rest < u64size := by
        rw [hci]
        rw [hcount rest] at hcnt
        exact hcnt
      obtain ⟨hA, hB⟩ := ih s1 s' ls2 hrest hinv1 hcnt'
      refine ⟨hA, ?_⟩
      rw [hB, hci, hcount rest]

/-- C6: in every state reachable by running tracer operations from a fresh
tracer, `active_call_index()` is `0` exactly when the call stack is empty
and otherwise is the top of the stack; change-recording operations tag
their emitted line with this value. -/
theorem C6_active_call_index_rule (b : BlockContext) (hash : Nat) (ops : List TracerOp)
    (s' : TransactionTracer) (evs : List Line)
    (hrun : runOps (b.transactionTracer hash) ops = some (s', evs))
    (hcnt : countStarts ops < u64size) :
    (activeCallIndex s' = 0 ↔ s'.call_stack = []) ∧
    (∀ i t, s'.call_stack = i :: t → activeCallIndex s' = i) ∧
    (∀ a k o n, recordStorageChange s' a k o n =
      (s', [Line.storageChange (activeCallIndex s') a k o n])) ∧
    (∀ l, (recordLog s' l).2 =
      [Line.addLog (activeCallIndex s') s'.log_in_block_index l.address l.topics
        l.data]) := by
  have h := runOps_bounded ops (b.transactionTracer hash) s' evs hrun
    (by intro i hi; simp [BlockContext.transactionTracer] at hi)
    (by show (0 : Nat) + countStarts ops < u64size; omega)
  obtain ⟨hinv, _⟩ := h
  refine ⟨?_, ?_, fun a k o n => rfl, fun l => rfl⟩
  · constructor
    · intro h0
      cases hst : s'.call_stack with
      | nil => rfl
      | cons i t =>
        have hi := hinv i (by rw [hst]; exact List.mem_cons_self i t)
        have ha : activeCallIndex s' = i := by simp [activeCallIndex, hst]
        omega
    · intro hst
      simp [activeCallIndex, hst]
  · intro i t hst
    simp [activeCallIndex, hst]

/-- C6 witness: the rule at the concrete final state of the balanced
example (empty stack) run. -/
theorem C6_witness :
    (activeCallIndex exBalancedFinal = 0 ↔ exBalancedFinal.call_stack = []) ∧
    (∀ i t, exBalancedFinal.call_stack = i :: t → activeCallIndex exBalancedFinal = i) ∧
    (∀ a k o n, recordStorageChange exBalancedFinal a k o n =
      (exBalancedFinal,
       [Line.storageChange (activeCallIndex exBalancedFinal) a k o n])) ∧
    (∀ l, (recordLog exBalancedFinal l).2 =
      [Line.addLog (activeCallIndex exBalancedFinal)
        exBalancedFinal.log_in_block_index l.address l.topics l.data]) :=
  C6_active_call_index_rule exBlock 0 exBalancedOps exBalancedFinal exBalancedLines
    (by decide) (by decide)
